import Mathlib

/-!
Verification of the pico-1wire library (`src/pico_1wire.c`) against its
natural-language specification.

The C code is shallowly embedded in Lean: every function of the library that
the claims touch is translated to a pure Lean function.  Machine integers
(`uint8_t`, `uint64_t`) are modelled as `Nat` with explicit `% 256` / `% 2^64`
reductions where the C code relies on the width; `int` status codes are `Int`.
Bus interaction is modelled by passing the bus responses to each operation as
explicit parameters (the presence answer consumed by `pico_1wire_reset_bus`,
the bytes consumed by `read_byte`, the bit consumed by `read_bit`), and by
returning the bytes written on the bus (`write_byte` calls) as an explicit
trace where a claim needs them.  The mutable context `pico_1wire_t` is passed
in and the (possibly updated) context is returned by each operation.  Caller
pointers (`ctx`, output buffers) are assumed non-NULL; output values that the
C code leaves unwritten on early-error paths are modelled as `Option`/empty.
The target (RP2040) is little-endian, which fixes the semantics of the
`((uint8_t*)&addr)[i]` byte accesses.  The C `float` arithmetic of
`pico_1wire_get_temperature` is modelled in `ℚ`; for the claims checked here
(16-bit integer raw values divided by the power of two 16.0) IEEE single
precision is exact, so the rational model agrees with the C result.
-/

set_option maxRecDepth 100000

namespace PicoOneWire

/-! ## ROM / function command bytes (`pico_1wire.c` lines 33-46) -/

def CMD_SEARCH : Nat := 0xF0
def CMD_READ : Nat := 0x33
def CMD_MATCH : Nat := 0x55
def CMD_SKIP : Nat := 0xCC
def CMD_CONVERT : Nat := 0x44
def CMD_WRITE_SCRATCHPAD : Nat := 0x4E
def CMD_READ_SCRATCHPAD : Nat := 0xBE
def CMD_COPY_SCRATCHPAD : Nat := 0x48
def CMD_RECALL : Nat := 0xB8
def CMD_READ_POWER_SUPPLY : Nat := 0xB4

/-! ## Family codes (`pico_1wire.c` lines 48-55) -/

def FAMILY_CODE_DS18S20 : Nat := 0x10
def FAMILY_CODE_DS1822 : Nat := 0x22
def FAMILY_CODE_DS18B20 : Nat := 0x28
def FAMILY_CODE_DS1825 : Nat := 0x3B
def FAMILY_CODE_DS28EA00 : Nat := 0x42

def MAX_TEMP_CONVERSION_TIME : Nat := 750

/-- `ADDR_FAMILY_CODE(x) = ((uint64_t)(x) >> 56)` (`pico_1wire.c` line 68). -/
def ADDR_FAMILY_CODE (x : Nat) : Nat := (x % 2 ^ 64) >>> 56

/-- Little-endian byte `i` of a 64-bit value: `((uint8_t*)&x)[i]` on the
little-endian RP2040. -/
def byteOf (x i : Nat) : Nat := (x >>> (8 * i)) % 256

/-- The context structure `pico_1wire_t` (`pico_1wire.h` lines 44-51). -/
structure pico_1wire_t where
  data_pin : Nat
  power_pin : Nat
  power_available : Bool
  power_state : Bool
  psu_present : Bool
deriving DecidableEq

/-! ## CRC-8 engine (`pico_1wire.c` lines 73-96) -/

/-- The lookup table `pico_1wire_crc8_lookup_table` (lines 73-90),
transcribed verbatim. -/
def pico_1wire_crc8_lookup_table : List Nat := [
  0, 94, 188, 226, 97, 63, 221, 131, 194, 156, 126, 32, 163, 253, 31, 65,
  157, 195, 33, 127, 252, 162, 64, 30, 95, 1, 227, 189, 62, 96, 130, 220,
  35, 125, 159, 193, 66, 28, 254, 160, 225, 191, 93, 3, 128, 222, 60, 98,
  190, 224, 2, 92, 223, 129, 99, 61, 124, 34, 192, 158, 29, 67, 161, 255,
  70, 24, 250, 164, 39, 121, 155, 197, 132, 218, 56, 102, 229, 187, 89, 7,
  219, 133, 103, 57, 186, 228, 6, 88, 25, 71, 165, 251, 120, 38, 196, 154,
  101, 59, 217, 135, 4, 90, 184, 230, 167, 249, 27, 69, 198, 152, 122, 36,
  248, 166, 68, 26, 153, 199, 37, 123, 58, 100, 134, 216, 91, 5, 231, 185,
  140, 210, 48, 110, 237, 179, 81, 15, 78, 16, 242, 172, 47, 113, 147, 205,
  17, 79, 173, 243, 112, 46, 204, 146, 211, 141, 111, 49, 178, 236, 14, 80,
  175, 241, 19, 77, 206, 144, 114, 44, 109, 51, 209, 143, 12, 82, 176, 238,
  50, 108, 142, 208, 83, 13, 239, 177, 240, 174, 76, 18, 145, 207, 45, 115,
  202, 148, 118, 40, 171, 245, 23, 73, 8, 86, 180, 234, 105, 55, 213, 139,
  87, 9, 235, 181, 54, 104, 138, 212, 149, 203, 41, 119, 244, 170, 72, 22,
  233, 183, 85, 11, 136, 214, 52, 106, 43, 117, 151, 201, 74, 20, 246, 168,
  116, 42, 200, 150, 21, 75, 169, 247, 182, 232, 10, 84, 215, 137, 107, 53]

/-- `crc8(crc, data) = pico_1wire_crc8_lookup_table[crc ^ data]`
(lines 93-96).  Both arguments are `uint8_t` in C, i.e. below 256. -/
def crc8 (crc data : Nat) : Nat :=
  pico_1wire_crc8_lookup_table.getD (crc ^^^ data) 0

/-- Folding the table-driven step over a byte sequence, seeded at 0, as the
library does for ROM codes and scratchpads. -/
def crc8Fold (data : List Nat) : Nat := data.foldl crc8 0

/-- Modelled from the spec: one bit step of the standard reflected
Dallas/Maxim CRC-8.  The generator polynomial x^8 + x^5 + x^4 + 1 is
0b100110001; reflected (bit-reversed, dropping the x^8 term) it is 0x8C.
If the low bit is set, shift right and xor the reflected polynomial,
otherwise just shift right. -/
def dallasCrc8Bit (c : Nat) : Nat :=
  if c &&& 1 = 1 then (c >>> 1) ^^^ 0x8C else c >>> 1

/-- Modelled from the spec: the standard Dallas/Maxim CRC-8 byte step — xor
the data byte into the running CRC and process 8 bits. -/
def dallasCrc8Byte (crc b : Nat) : Nat := dallasCrc8Bit^[8] (crc ^^^ b)

/-- Modelled from the spec: the standard Dallas/Maxim CRC-8 of a byte
sequence (init value 0). -/
def dallasCrc8 (data : List Nat) : Nat := data.foldl dallasCrc8Byte 0

/-! ## Byte streams read from the bus -/

/-- `read_byte` returns a `uint8_t`; byte `i` of the response stream. -/
def read_byte_stream (bytes : List Nat) (i : Nat) : Nat := bytes.getD i 0 % 256

/-- The 9 scratchpad bytes as read from the bus by
`pico_1wire_read_scratch_pad` (lines 463-467). -/
def bytes9 (bytes : List Nat) : List Nat :=
  [read_byte_stream bytes 0, read_byte_stream bytes 1, read_byte_stream bytes 2,
   read_byte_stream bytes 3, read_byte_stream bytes 4, read_byte_stream bytes 5,
   read_byte_stream bytes 6, read_byte_stream bytes 7, read_byte_stream bytes 8]

/-- CRC over the first 8 scratchpad bytes (lines 463-467). -/
def scratchCRC (buf : List Nat) : Nat := crc8Fold (buf.take 8)

/-! ## ROM search helpers (`pico_1wire_search_rom`, lines 384-425) -/

/-- Byte reversal performed by the search loop (lines 403-412): byte `7 - i`
of the stored address is byte `i` of the raw candidate (`*p-- = byte` from
`&new_addr[7]` downwards). -/
def reverseBytes64 (x : Nat) : Nat :=
  (byteOf x 0 <<< 56) ||| (byteOf x 1 <<< 48) ||| (byteOf x 2 <<< 40) |||
    (byteOf x 3 <<< 32) ||| (byteOf x 4 <<< 24) ||| (byteOf x 5 <<< 16) |||
    (byteOf x 6 <<< 8) ||| byteOf x 7

/-- CRC over the low-order 7 bytes of a raw candidate address, as computed by
the search loop (lines 407-411: `if (i < 7) crc = crc8(crc, byte)`). -/
def addrCRC (x : Nat) : Nat :=
  crc8Fold [byteOf x 0, byteOf x 1, byteOf x 2, byteOf x 3, byteOf x 4,
            byteOf x 5, byteOf x 6]

/-- The CRC test of line 413: `crc == byte` where `byte` is the last byte
read, i.e. byte 7 of the candidate. -/
def addrCRCValid (x : Nat) : Bool := addrCRC x == byteOf x 7

/-- The body of the `while (find_next_device(...))` loop of
`pico_1wire_search_rom` (lines 401-422), iterated over the list of raw
64-bit candidates produced by the successive completed search passes.
`found` is the content of `addr_list[0 .. *devices_found - 1]`. -/
def searchRomLoop : List Nat → Nat → List Nat → Int × List Nat
  | [], _, found => (0, found)
  | rom :: rest, size, found =>
      if addrCRCValid rom then
        if size ≤ found.length then (2, found)
        else searchRomLoop rest size (found ++ [reverseBytes64 rom])
      else searchRomLoop rest size found

/-! ## Library functions -/

/-- `pico_1wire_reset_bus` (lines 317-348): the sampled presence answer is the
bus input; the context is not modified. -/
def pico_1wire_reset_bus (ctx : pico_1wire_t) (presence : Bool) :
    Bool × pico_1wire_t :=
  (presence, ctx)

/-- The bytes written on the bus by `match_rom` (lines 245-262) when the
initial reset detects a presence pulse. -/
def matchRomWrites (addr : Nat) : List Nat :=
  if addr = 0 then [CMD_SKIP]
  else [CMD_MATCH, byteOf addr 7, byteOf addr 6, byteOf addr 5, byteOf addr 4,
        byteOf addr 3, byteOf addr 2, byteOf addr 1, byteOf addr 0]

/-- `match_rom` (lines 245-262): returns 1 when the bus reset finds no
presence pulse (writing nothing), otherwise 0 together with the bytes
written (Skip-ROM for the wildcard address 0, else Match-ROM followed by the
8 address bytes, most significant — family code — first). -/
def match_rom (presence : Bool) (addr : Nat) : Int × List Nat :=
  if !presence then (1, [])
  else (0, matchRomWrites addr)

/-- `pico_1wire_read_power_supply` (lines 428-445).  `bitRead` is the bit the
devices answer to the Read-Power-Supply command; `presentGiven` models
whether the caller passed a non-NULL `present` pointer. -/
def pico_1wire_read_power_supply (ctx : pico_1wire_t) (addr : Nat)
    (presence : Bool) (bitRead : Bool) (presentGiven : Bool) :
    Int × pico_1wire_t × Option Bool :=
  let m := match_rom presence addr
  if m.1 ≠ 0 then (1, ctx, none)
  else
    let ctx2 : pico_1wire_t := { ctx with psu_present := bitRead }
    (0, ctx2, if presentGiven then some ctx2.psu_present else none)

/-- `pico_1wire_init` (lines 270-299): builds the context (`calloc`
zero-initializes the fields that are not assigned), sets `psu_present` to
true and probes the bus with `pico_1wire_read_power_supply(ctx, 0, NULL)`.
Allocation is assumed to succeed. -/
def pico_1wire_init (data_pin power_pin : Int) (power_polarity : Bool)
    (presence bitRead : Bool) : Option pico_1wire_t :=
  if data_pin < 0 then none
  else
    let ctx : pico_1wire_t := {
      data_pin := data_pin.toNat
      power_pin := if 0 ≤ power_pin then power_pin.toNat else 0
      power_available := decide (0 ≤ power_pin)
      power_state := if 0 ≤ power_pin then power_polarity else false
      psu_present := true }
    some (pico_1wire_read_power_supply ctx 0 presence bitRead false).2.1

/-- `pico_1wire_read_rom` (lines 351-381). -/
def pico_1wire_read_rom (ctx : pico_1wire_t) (presence : Bool)
    (bytes : List Nat) : Int × pico_1wire_t × Option Nat :=
  if !presence then (1, ctx, none)
  else
    let bs := (List.range 8).map (read_byte_stream bytes)
    let addr := bs.foldl (fun a b => ((a <<< 8) % 2 ^ 64) ||| b) 0
    let crc := crc8Fold (bs.take 7)
    if bs.getD 7 0 ≠ crc then (2, ctx, some addr) else (0, ctx, some addr)

/-- `pico_1wire_search_rom` (lines 384-425).  `candidates` is the list of raw
64-bit addresses delivered by the successive completed passes of
`find_next_device`; the returned list is the content of `addr_list` (its
length is `*devices_found`). -/
def pico_1wire_search_rom (ctx : pico_1wire_t) (addr_list_size : Nat)
    (presence : Bool) (candidates : List Nat) :
    Int × pico_1wire_t × List Nat :=
  if addr_list_size < 1 then (-1, ctx, [])
  else if !presence then (1, ctx, [])
  else
    let r := searchRomLoop candidates addr_list_size []
    (r.1, ctx, r.2)

/-- `pico_1wire_read_scratch_pad` (lines 448-474).  Returns the status, the
context, and the content of `buf` (`none` when the function returns before
writing into `buf`). -/
def pico_1wire_read_scratch_pad (ctx : pico_1wire_t) (addr : Nat)
    (presence : Bool) (bytes : List Nat) :
    Int × pico_1wire_t × Option (List Nat) :=
  let m := match_rom presence addr
  if m.1 ≠ 0 then (1, ctx, none)
  else
    let buf := bytes9 bytes
    if scratchCRC buf ≠ buf.getD 8 0 then (2, ctx, some buf)
    else (0, ctx, some buf)

/-- The data bytes sent by `pico_1wire_write_scratch_pad` after the
Write-Scratchpad command (lines 489-493): `buf[2]`, `buf[3]`, and `buf[4]`
except for the DS18S20 family. -/
def writeScratchDataBytes (addr : Nat) (buf : List Nat) : List Nat :=
  [buf.getD 2 0, buf.getD 3 0] ++
    (if ADDR_FAMILY_CODE addr ≠ FAMILY_CODE_DS18S20 then [buf.getD 4 0] else [])

/-- `pico_1wire_write_scratch_pad` (lines 477-496).  The last component is
the full trace of bytes written on the bus (empty when `match_rom` fails). -/
def pico_1wire_write_scratch_pad (ctx : pico_1wire_t) (addr : Nat)
    (buf : List Nat) (presence : Bool) : Int × pico_1wire_t × List Nat :=
  let m := match_rom presence addr
  if m.1 ≠ 0 then (1, ctx, [])
  else (0, ctx, m.2 ++ CMD_WRITE_SCRATCHPAD :: writeScratchDataBytes addr buf)

/-- The configuration-byte update performed by `pico_1wire_set_resolution`
(line 659): `new_cfg = (scratch[4] & 0x9f) | ((resolution - 9) << 5)`. -/
def setResolutionConfig (config resolution : Nat) : Nat :=
  (config &&& 0x9f) ||| ((resolution - 9) <<< 5)

/-- The configuration-byte decoding performed by `pico_1wire_get_resolution`
(line 624) and `pico_1wire_convert_duration` (line 515):
`res = ((config & 0x7f) >> 5) + 9`. -/
def getResolutionFromConfig (config : Nat) : Nat :=
  ((config &&& 0x7f) >>> 5) + 9

/-- `pico_1wire_convert_duration` (lines 499-532). -/
def pico_1wire_convert_duration (ctx : pico_1wire_t) (addr : Nat)
    (presence : Bool) (bytes : List Nat) : Int × pico_1wire_t × Nat :=
  let fam := ADDR_FAMILY_CODE addr
  let delay :=
    if addr ≠ 0 ∧ (fam = FAMILY_CODE_DS18B20 ∨ fam = FAMILY_CODE_DS1822 ∨
        fam = FAMILY_CODE_DS1825 ∨ fam = FAMILY_CODE_DS28EA00) then
      let r := pico_1wire_read_scratch_pad ctx addr presence bytes
      if r.1 = 0 then
        let scratch := r.2.2.getD []
        let resolution := getResolutionFromConfig (scratch.getD 4 0)
        if resolution = 9 then 95
        else if resolution = 10 then 190
        else if resolution = 11 then 375
        else MAX_TEMP_CONVERSION_TIME
      else MAX_TEMP_CONVERSION_TIME
    else MAX_TEMP_CONVERSION_TIME
  (0, ctx, delay)

/-- `pico_1wire_convert_temperature` (lines 535-559).  The last component
records whether the strong pull-up MOSFET was requested for the conversion
(`if (!ctx->psu_present) power_mosfet_on(ctx)`); the context itself is not
modified. -/
def pico_1wire_convert_temperature (ctx : pico_1wire_t) (addr : Nat)
    (wait : Bool) (presence : Bool) : Int × pico_1wire_t × Bool :=
  let m := match_rom presence addr
  if m.1 ≠ 0 then (1, ctx, false)
  else (0, ctx, !ctx.psu_present)

/-- The conversion of scratchpad bytes 0-1 to a signed integer performed by
`pico_1wire_get_temperature` (lines 576-578). -/
def rawTemp (scratch : List Nat) : Int :=
  let t := (scratch.getD 1 0 <<< 8) ||| scratch.getD 0 0
  if t &&& 0x8000 ≠ 0 then -(((t ^^^ 0xffff) + 1 : Nat) : Int) else (t : Int)

/-- Modelled from the spec: the two's-complement value of a 16-bit word. -/
def twosComplement16 (w : Nat) : Int :=
  if w < 0x8000 then (w : Int) else (w : Int) - 0x10000

/-- `pico_1wire_get_temperature` (lines 562-605), with the `float`
computation carried out in `ℚ` (exact for the division by 16 of a 16-bit
value; the DS18S20 branch uses the C integer division `temp_read / 2`,
i.e. truncation toward zero). -/
def pico_1wire_get_temperature (ctx : pico_1wire_t) (addr : Nat)
    (presence : Bool) (bytes : List Nat) : Int × pico_1wire_t × Option ℚ :=
  let r := pico_1wire_read_scratch_pad ctx addr presence bytes
  if r.1 ≠ 0 then (1, ctx, none)
  else
    let scratch := r.2.2.getD []
    let temp_read := rawTemp scratch
    let fam := ADDR_FAMILY_CODE addr
    if fam = FAMILY_CODE_DS1822 ∨ fam = FAMILY_CODE_DS18B20 ∨
        fam = FAMILY_CODE_DS1825 ∨ fam = FAMILY_CODE_DS28EA00 then
      (0, ctx, some ((temp_read : ℚ) / 16))
    else if fam = FAMILY_CODE_DS18S20 then
      let count_remain : Int := scratch.getD 6 0
      let count_per_degree : Int := scratch.getD 7 0
      (0, ctx, some (((Int.tdiv temp_read 2 : Int) : ℚ) - 1 / 4 +
        ((count_per_degree - count_remain : Int) : ℚ) / (count_per_degree : ℚ)))
    else
      (2, ctx, some ((temp_read : ℚ) / 16))

/-- `pico_1wire_get_resolution` (lines 608-639).  The wildcard address 0 is
rejected by the `!addr` argument check on line 612. -/
def pico_1wire_get_resolution (ctx : pico_1wire_t) (addr : Nat)
    (presence : Bool) (bytes : List Nat) : Int × pico_1wire_t × Option Nat :=
  if addr = 0 then (-1, ctx, none)
  else
    let r := pico_1wire_read_scratch_pad ctx addr presence bytes
    if r.1 ≠ 0 then (1, ctx, none)
    else
      let scratch := r.2.2.getD []
      let fam := ADDR_FAMILY_CODE addr
      if fam = FAMILY_CODE_DS18B20 ∨ fam = FAMILY_CODE_DS1822 ∨
          fam = FAMILY_CODE_DS1825 ∨ fam = FAMILY_CODE_DS28EA00 then
        (0, ctx, some (getResolutionFromConfig (scratch.getD 4 0)))
      else if fam = FAMILY_CODE_DS18S20 then (0, ctx, some 9)
      else (2, ctx, some 0)

/-- `pico_1wire_set_resolution` (lines 642-671).  The wildcard address 0 and
resolutions outside 9..12 are rejected by the argument check on line 647.
`presenceRead` / `presenceWrite` are the presence answers consumed by the
scratchpad read and the scratchpad write-back; the last component is the
trace of bytes written on the bus by the write-back step (`none` when no
write-back was attempted). -/
def pico_1wire_set_resolution (ctx : pico_1wire_t) (addr : Nat)
    (resolution : Nat) (presenceRead : Bool) (bytes : List Nat)
    (presenceWrite : Bool) : Int × pico_1wire_t × Option (List Nat) :=
  if addr = 0 ∨ resolution < 9 ∨ 12 < resolution then (-1, ctx, none)
  else
    let r := pico_1wire_read_scratch_pad ctx addr presenceRead bytes
    if r.1 ≠ 0 then (1, ctx, none)
    else
      let scratch := r.2.2.getD []
      let fam := ADDR_FAMILY_CODE addr
      if fam = FAMILY_CODE_DS18B20 ∨ fam = FAMILY_CODE_DS1822 ∨
          fam = FAMILY_CODE_DS1825 ∨ fam = FAMILY_CODE_DS28EA00 then
        let new_cfg := setResolutionConfig (scratch.getD 4 0) resolution
        let scratch2 := scratch.set 4 new_cfg
        let w := pico_1wire_write_scratch_pad ctx addr scratch2 presenceWrite
        if w.1 ≠ 0 then (2, ctx, some w.2.2)
        else (0, ctx, some w.2.2)
      else (3, ctx, none)

/-- A concrete context used by the witness theorems. -/
def defaultCtx : pico_1wire_t :=
  { data_pin := 1, power_pin := 0, power_available := false,
    power_state := false, psu_present := true }

/-! ## CRC-8 engine vs. the standard Dallas/Maxim CRC-8 (claim C1) -/

lemma crc8_table_matches_spec :
    ∀ x < 256, pico_1wire_crc8_lookup_table.getD x 0 = dallasCrc8Bit^[8] x := by
  decide

lemma crc8_table_lt_256 :
    ∀ x < 256, pico_1wire_crc8_lookup_table.getD x 0 < 256 := by
  decide

lemma crc8_eq_dallasCrc8Byte {c b : Nat} (hc : c < 256) (hb : b < 256) :
    crc8 c b = dallasCrc8Byte c b :=
  crc8_table_matches_spec (c ^^^ b) (Nat.xor_lt_two_pow (n := 8) hc hb)

lemma crc8_lt_256 {c b : Nat} (hc : c < 256) (hb : b < 256) :
    crc8 c b < 256 :=
  crc8_table_lt_256 (c ^^^ b) (Nat.xor_lt_two_pow (n := 8) hc hb)

lemma foldl_crc8_eq_dallas (data : List Nat) :
    ∀ c < 256, (∀ b ∈ data, b < 256) →
      data.foldl crc8 c = data.foldl dallasCrc8Byte c := by
  induction data with
  | nil => intro c _ _; rfl
  | cons b tl ih =>
      intro c hc hmem
      have hb : b < 256 := hmem b (List.mem_cons_self b tl)
      have htl : ∀ x ∈ tl, x < 256 := fun x hx => hmem x (List.mem_cons_of_mem b hx)
      simp only [List.foldl_cons]
      rw [crc8_eq_dallasCrc8Byte hc hb]
      have hlt : dallasCrc8Byte c b < 256 := by
        rw [← crc8_eq_dallasCrc8Byte hc hb]; exact crc8_lt_256 hc hb
      exact ih (dallasCrc8Byte c b) hlt htl

/-- C1: the table-driven step `crc8(c, b) = table[c XOR b]` computes the
standard Dallas/Maxim CRC-8 (polynomial x^8+x^5+x^4+1, reflected, init 0)
byte step, and hence folding it over any byte sequence seeded at 0
reproduces the standard Dallas/Maxim CRC-8 of that sequence. -/
theorem crc8_implements_dallas_maxim_crc8 (c b : Nat) (data : List Nat)
    (hc : c < 256) (hb : b < 256) (hdata : ∀ x ∈ data, x < 256) :
    crc8 c b = dallasCrc8Byte c b ∧ crc8Fold data = dallasCrc8 data :=
  ⟨crc8_eq_dallasCrc8Byte hc hb,
   foldl_crc8_eq_dallas data 0 (by decide) hdata⟩

/-- Witness for C1 at a concrete input: a DS18B20-style ROM byte sequence. -/
theorem crc8_implements_dallas_maxim_crc8_witness :
    crc8 0x55 0x28 = dallasCrc8Byte 0x55 0x28 ∧
      crc8Fold [0x28, 1, 2, 3, 4, 5, 6] = dallasCrc8 [0x28, 1, 2, 3, 4, 5, 6] :=
  crc8_implements_dallas_maxim_crc8 0x55 0x28 [0x28, 1, 2, 3, 4, 5, 6]
    (by decide) (by decide) (by decide)

/-! ## Resolution configuration byte round-trip (claim C8) -/

/-- C8: for every resolution 9..12 and every starting configuration byte,
encoding the resolution into the configuration byte as set-resolution does
and decoding as get-resolution does yields the resolution again. -/
theorem resolution_encode_decode_roundtrip (config resolution : Nat)
    (hcfg : config < 256) (h9 : 9 ≤ resolution) (h12 : resolution ≤ 12) :
    getResolutionFromConfig (setResolutionConfig config resolution) = resolution := by
  have h : ∀ c < 256, ∀ r < 13, 9 ≤ r →
      getResolutionFromConfig (setResolutionConfig c r) = r := by decide
  exact h config hcfg resolution (by omega) h9

/-- Witness for C8 at a concrete input (config 0xFF, resolution 10). -/
theorem resolution_encode_decode_roundtrip_witness :
    getResolutionFromConfig (setResolutionConfig 0xFF 10) = 10 :=
  resolution_encode_decode_roundtrip 0xFF 10 (by decide) (by decide) (by decide)

/-! ## ROM search loop (claims C2, C5) -/

lemma searchRomLoop_nil (size : Nat) (found : List Nat) :
    searchRomLoop [] size found = (0, found) := rfl

lemma searchRomLoop_cons (rom : Nat) (rest : List Nat) (size : Nat)
    (found : List Nat) :
    searchRomLoop (rom :: rest) size found =
      if addrCRCValid rom then
        if size ≤ found.length then (2, found)
        else searchRomLoop rest size (found ++ [reverseBytes64 rom])
      else searchRomLoop rest size found := rfl

/-- When the buffer can hold all CRC-valid candidates, the loop stores all of
them (byte-reversed) and reports success. -/
lemma searchRomLoop_all (cands : List Nat) : ∀ (size : Nat) (found : List Nat),
    found.length + (cands.filter addrCRCValid).length ≤ size →
    searchRomLoop cands size found =
      (0, found ++ (cands.filter addrCRCValid).map reverseBytes64) := by
  induction cands with
  | nil => intro size found _; simp [searchRomLoop_nil]
  | cons rom rest ih =>
      intro size found h
      rw [searchRomLoop_cons]
      rw [List.filter_cons] at h ⊢
      cases hv : addrCRCValid rom with
      | false =>
          simp only [hv, Bool.false_eq_true, if_false]
          exact ih size found (by simpa [hv] using h)
      | true =>
          simp only [hv, if_true]
          have hlen : ¬ size ≤ found.length := by
            simp only [hv, if_true, List.length_cons] at h
            omega
          rw [if_neg hlen]
          rw [ih size (found ++ [reverseBytes64 rom])
            (by simp only [hv, if_true, List.length_cons] at h
                simp only [List.length_append, List.length_cons, List.length_nil]
                omega)]
          simp [List.append_assoc]

/-- When there are more CRC-valid candidates than free buffer slots, the loop
fills the buffer up to capacity and returns status 2. -/
lemma searchRomLoop_over (cands : List Nat) : ∀ (size : Nat) (found : List Nat),
    found.length ≤ size →
    size < found.length + (cands.filter addrCRCValid).length →
    searchRomLoop cands size found =
      (2, found ++
        ((cands.filter addrCRCValid).take (size - found.length)).map reverseBytes64) := by
  induction cands with
  | nil =>
      intro size found h1 h2
      simp only [List.filter_nil, List.length_nil] at h2
      omega
  | cons rom rest ih =>
      intro size found h1 h2
      rw [searchRomLoop_cons]
      rw [List.filter_cons] at h2 ⊢
      cases hv : addrCRCValid rom with
      | false =>
          simp only [hv, Bool.false_eq_true, if_false] at h2 ⊢
          exact ih size found h1 h2
      | true =>
          simp only [hv, if_true, List.length_cons] at h2 ⊢
          by_cases hs : size ≤ found.length
          · rw [if_pos hs]
            have heq : size - found.length = 0 := by omega
            rw [heq]
            simp
          · rw [if_neg hs]
            rw [ih size (found ++ [reverseBytes64 rom])
              (by simp only [List.length_append, List.length_cons, List.length_nil]; omega)
              (by simp only [List.length_append, List.length_cons, List.length_nil]; omega)]
            have hsf : size - found.length = (size - (found.length + 1)) + 1 := by omega
            rw [hsf, List.take_succ_cons]
            simp [List.append_assoc]

/-- Candidates that fail the CRC test are simply skipped: the loop behaves as
if they were filtered out of the candidate stream. -/
lemma searchRomLoop_filter (cands : List Nat) : ∀ (size : Nat) (found : List Nat),
    searchRomLoop cands size found =
      searchRomLoop (cands.filter addrCRCValid) size found := by
  induction cands with
  | nil => intro size found; rfl
  | cons rom rest ih =>
      intro size found
      rw [List.filter_cons, searchRomLoop_cons]
      cases hv : addrCRCValid rom with
      | false =>
          simp only [hv, Bool.false_eq_true, if_false]
          exact ih size found
      | true =>
          simp only [hv, if_true]
          rw [searchRomLoop_cons]
          simp only [hv, if_true]
          by_cases hs : size ≤ found.length
          · rw [if_pos hs, if_pos hs]
          · rw [if_neg hs, if_neg hs]
            exact ih size (found ++ [reverseBytes64 rom])

lemma searchRomLoop_length_le (cands : List Nat) (size : Nat) (found : List Nat)
    (h : found.length ≤ size) :
    (searchRomLoop cands size found).2.length ≤ size := by
  rcases le_or_lt (found.length + (cands.filter addrCRCValid).length) size with hle | hlt
  · rw [searchRomLoop_all cands size found hle]
    simp only [List.length_append, List.length_map]
    omega
  · rw [searchRomLoop_over cands size found h hlt]
    simp only [List.length_append, List.length_map, List.length_take]
    omega

lemma mem_searchRomLoop (cands : List Nat) (size : Nat) (a : Nat)
    (ha : a ∈ (searchRomLoop cands size []).2) :
    ∃ rom, rom ∈ cands ∧ addrCRCValid rom = true ∧ a = reverseBytes64 rom := by
  have key : ∀ x ∈ (cands.filter addrCRCValid).map reverseBytes64,
      ∃ rom, rom ∈ cands ∧ addrCRCValid rom = true ∧ x = reverseBytes64 rom := by
    intro x hx
    obtain ⟨rom, hrom, hrev⟩ := List.mem_map.mp hx
    obtain ⟨hmem, hvalid⟩ := List.mem_filter.mp hrom
    exact ⟨rom, hmem, hvalid, hrev.symm⟩
  rcases le_or_lt ((cands.filter addrCRCValid).length) size with hle | hlt
  · rw [searchRomLoop_all cands size [] (by simpa using hle)] at ha
    simp only [List.nil_append] at ha
    exact key a ha
  · rw [searchRomLoop_over cands size [] (Nat.zero_le _) (by simpa using hlt)] at ha
    simp only [List.nil_append, Nat.sub_zero] at ha
    obtain ⟨rom, hrom, hrev⟩ := List.mem_map.mp ha
    have hmem := (List.take_sublist size (cands.filter addrCRCValid)).mem hrom
    obtain ⟨hmemc, hvalid⟩ := List.mem_filter.mp hmem
    exact ⟨rom, hmemc, hvalid, hrev.symm⟩

/-- C2: whenever the completed search passes yield more CRC-valid addresses
than `addr_list_size`, `pico_1wire_search_rom` returns status 2 with exactly
`addr_list_size` addresses stored (the first `addr_list_size` valid ones,
byte-reversed) and `*devices_found = addr_list_size`; and for every input the
number of addresses stored never exceeds `addr_list_size`, so the function
never writes past index `addr_list_size - 1` of the output buffer. -/
theorem search_rom_capacity_exceeded (ctx : pico_1wire_t)
    (candidates : List Nat) (size : Nat) (hsize : 1 ≤ size)
    (hmany : size < (candidates.filter addrCRCValid).length) :
    (pico_1wire_search_rom ctx size true candidates).1 = 2 ∧
      (pico_1wire_search_rom ctx size true candidates).2.2.length = size ∧
      (pico_1wire_search_rom ctx size true candidates).2.2 =
        ((candidates.filter addrCRCValid).take size).map reverseBytes64 ∧
      ∀ (sz : Nat) (p : Bool) (cs : List Nat),
        (pico_1wire_search_rom ctx sz p cs).2.2.length ≤ sz := by
  have hloop := searchRomLoop_over candidates size [] (Nat.zero_le _) (by simpa using hmany)
  have hmain : pico_1wire_search_rom ctx size true candidates =
      (2, ctx, ((candidates.filter addrCRCValid).take size).map reverseBytes64) := by
    simp only [pico_1wire_search_rom]
    rw [if_neg (by omega)]
    simp only [Bool.not_true, Bool.false_eq_true, if_false]
    rw [hloop]
    simp
  refine ⟨by rw [hmain], by rw [hmain]; simp [List.length_take]; omega,
    by rw [hmain], ?_⟩
  intro sz p cs
  by_cases hsz : sz < 1
  · simp [pico_1wire_search_rom, hsz]
  · cases p with
    | false => simp [pico_1wire_search_rom, hsz]
    | true =>
        simp only [pico_1wire_search_rom, hsz, Bool.not_true, Bool.false_eq_true,
          if_false]
        exact searchRomLoop_length_le cs sz [] (Nat.zero_le _)

/-- Witness for C2: two CRC-valid candidates, buffer capacity 1. -/
theorem search_rom_capacity_exceeded_witness :
    (pico_1wire_search_rom defaultCtx 1 true
        [11386794222641348904, 5190689979932150056]).1 = 2 ∧
      (pico_1wire_search_rom defaultCtx 1 true
        [11386794222641348904, 5190689979932150056]).2.2.length = 1 := by
  have h := search_rom_capacity_exceeded defaultCtx
    [11386794222641348904, 5190689979932150056] 1 (by decide) (by decide)
  exact ⟨h.1, h.2.1⟩

/-- C5: a completed search pass whose address fails the CRC-8 check is
skipped — not stored and not counted — and the search continues with the
remaining passes (the loop behaves exactly as on the CRC-valid subsequence);
every stored address is the byte-reversed form of a CRC-valid candidate. -/
theorem search_rom_skips_invalid_crc (ctx : pico_1wire_t)
    (candidates : List Nat) (size : Nat) :
    searchRomLoop candidates size [] =
        searchRomLoop (candidates.filter addrCRCValid) size [] ∧
      ∀ a ∈ (pico_1wire_search_rom ctx size true candidates).2.2,
        ∃ rom, rom ∈ candidates ∧ addrCRCValid rom = true ∧
          a = reverseBytes64 rom := by
  refine ⟨searchRomLoop_filter candidates size [], ?_⟩
  intro a ha
  by_cases hsz : size < 1
  · simp [pico_1wire_search_rom, hsz] at ha
  · simp only [pico_1wire_search_rom, hsz, Bool.not_true, Bool.false_eq_true,
      if_false] at ha
    exact mem_searchRomLoop candidates size a ha

/-- Witness for C5: a CRC-invalid candidate (1) followed by a CRC-valid one;
the stored address is the byte-reversal of the valid candidate. -/
theorem search_rom_skips_invalid_crc_witness :
    searchRomLoop [1, 11386794222641348904] 5 [] =
        searchRomLoop ([1, 11386794222641348904].filter addrCRCValid) 5 [] ∧
      ∃ rom, rom ∈ [1, 11386794222641348904] ∧ addrCRCValid rom = true ∧
        2882587448469423774 = reverseBytes64 rom := by
  have h := search_rom_skips_invalid_crc defaultCtx [1, 11386794222641348904] 5
  exact ⟨h.1, h.2 2882587448469423774 (by decide)⟩

/-! ## Address selection (claim C7) -/

lemma byteOf_seven_eq_family (addr : Nat) (h64 : addr < 2 ^ 64) :
    byteOf addr 7 = ADDR_FAMILY_CODE addr := by
  have h : addr >>> 56 < 256 := by
    rw [Nat.shiftRight_eq_div_pow]
    apply Nat.div_lt_of_lt_mul
    calc addr < 2 ^ 64 := h64
    _ = 2 ^ 56 * 256 := by norm_num
  unfold byteOf ADDR_FAMILY_CODE
  rw [Nat.mod_eq_of_lt h64, show 8 * 7 = 56 from rfl, Nat.mod_eq_of_lt h]

/-- C7: `match_rom` fails (status 1) exactly when the bus reset detects no
presence pulse, writing nothing in that case; on presence it writes the
single Skip-ROM byte 0xCC for the wildcard address 0, and otherwise the
Match-ROM byte 0x55 followed by the 8 address bytes most-significant first,
so the family-code byte is sent first. -/
theorem match_rom_address_selection (presence : Bool) (addr : Nat)
    (h64 : addr < 2 ^ 64) :
    ((match_rom presence addr).1 = 1 ↔ presence = false) ∧
      ((match_rom presence addr).1 = 0 ↔ presence = true) ∧
      (presence = false → (match_rom presence addr).2 = []) ∧
      (presence = true → addr = 0 → (match_rom presence addr).2 = [CMD_SKIP]) ∧
      (presence = true → addr ≠ 0 →
        (match_rom presence addr).2 =
          [CMD_MATCH, byteOf addr 7, byteOf addr 6, byteOf addr 5,
           byteOf addr 4, byteOf addr 3, byteOf addr 2, byteOf addr 1,
           byteOf addr 0] ∧
        (match_rom presence addr).2.getD 1 0 = ADDR_FAMILY_CODE addr) := by
  cases presence with
  | false => simp [match_rom]
  | true =>
      refine ⟨by simp [match_rom], by simp [match_rom], by simp, ?_, ?_⟩
      · intro _ h0
        simp [match_rom, matchRomWrites, h0]
      · intro _ h0
        have hw : (match_rom true addr).2 =
            [CMD_MATCH, byteOf addr 7, byteOf addr 6, byteOf addr 5,
             byteOf addr 4, byteOf addr 3, byteOf addr 2, byteOf addr 1,
             byteOf addr 0] := by
          simp [match_rom, matchRomWrites, h0]
        refine ⟨hw, ?_⟩
        rw [hw]
        simpa using byteOf_seven_eq_family addr h64

/-- Witness for C7: Skip-ROM on the wildcard address and family code 0x28
sent first for the address 0x2800000000000000. -/
theorem match_rom_address_selection_witness :
    (match_rom true 0).2 = [CMD_SKIP] ∧
      (match_rom true 2882303761517117440).2.getD 1 0 = 0x28 := by
  have h0 := match_rom_address_selection true 0 (by decide)
  have h1 := match_rom_address_selection true 2882303761517117440 (by decide)
  refine ⟨h0.2.2.2.1 rfl rfl, ?_⟩
  rw [(h1.2.2.2.2 rfl (by decide)).2]
  decide

/-! ## Frame property of `psu_present` (claim C9) -/

/-- C9: `psu_present` is written only by `pico_1wire_init` (which sets it to
true and then probes via the power-supply query, so it ends up as the probed
bit when the probe's bus reset sees a presence pulse and stays true
otherwise) and by `pico_1wire_read_power_supply` (which sets it to the bit
read from the bus, independently of whether the caller's `present` output
pointer is given); every other library operation, including
`pico_1wire_convert_temperature` — which only reads it to decide strong
pull-up use — returns the context with `psu_present` unchanged. -/
theorem psu_present_frame (ctx : pico_1wire_t) (addr size res : Nat)
    (presence bitRead given wait pw : Bool) (bytes buf cands : List Nat)
    (dp pp : Int) (pol p2 b2 : Bool) :
    ((pico_1wire_init dp pp pol p2 b2).map pico_1wire_t.psu_present) =
        (if dp < 0 then none else some (if p2 then b2 else true)) ∧
      ((pico_1wire_read_power_supply ctx addr presence bitRead given).2.1).psu_present =
        (if presence then bitRead else ctx.psu_present) ∧
      (pico_1wire_reset_bus ctx presence).2 = ctx ∧
      (pico_1wire_read_rom ctx presence bytes).2.1 = ctx ∧
      (pico_1wire_search_rom ctx size presence cands).2.1 = ctx ∧
      (pico_1wire_read_scratch_pad ctx addr presence bytes).2.1 = ctx ∧
      (pico_1wire_write_scratch_pad ctx addr buf presence).2.1 = ctx ∧
      (pico_1wire_convert_duration ctx addr presence bytes).2.1 = ctx ∧
      (pico_1wire_convert_temperature ctx addr wait presence).2.1 = ctx ∧
      (pico_1wire_convert_temperature ctx addr wait true).2.2 = !ctx.psu_present ∧
      (pico_1wire_get_temperature ctx addr presence bytes).2.1 = ctx ∧
      (pico_1wire_get_resolution ctx addr presence bytes).2.1 = ctx ∧
      (pico_1wire_set_resolution ctx addr res presence bytes pw).2.1 = ctx := by
  refine ⟨?_, ?_, rfl, ?_, ?_, ?_, ?_, ?_, ?_, ?_, ?_, ?_, ?_⟩
  · cases p2 <;>
      simp [pico_1wire_init, pico_1wire_read_power_supply, match_rom] <;>
      split_ifs <;> rfl
  · cases presence <;> simp [pico_1wire_read_power_supply, match_rom]
  · unfold pico_1wire_read_rom; dsimp only; split_ifs <;> rfl
  · unfold pico_1wire_search_rom; dsimp only; split_ifs <;> rfl
  · unfold pico_1wire_read_scratch_pad; dsimp only; split_ifs <;> rfl
  · unfold pico_1wire_write_scratch_pad; dsimp only; split_ifs <;> rfl
  · unfold pico_1wire_convert_duration; rfl
  · unfold pico_1wire_convert_temperature; dsimp only; split_ifs <;> rfl
  · simp [pico_1wire_convert_temperature, match_rom]
  · unfold pico_1wire_get_temperature; dsimp only; split_ifs <;> rfl
  · unfold pico_1wire_get_resolution; dsimp only; split_ifs <;> rfl
  · unfold pico_1wire_set_resolution; dsimp only; split_ifs <;> rfl

/-! ## Wildcard address 0 (claim C10) -/

/-- C10: `pico_1wire_get_resolution` and `pico_1wire_set_resolution` reject
the wildcard address 0 with status -1, independently of every bus response
(so no bus activity takes place and the context is unchanged), while the
other addressed operations — read-power-supply, scratchpad read/write,
convert-temperature, get-temperature — accept address 0, proceeding via the
Skip-ROM broadcast instead of returning -1. -/
theorem wildcard_address_policy (ctx : pico_1wire_t) (res : Nat)
    (p pw given w b : Bool) (bytes buf : List Nat) :
    pico_1wire_get_resolution ctx 0 p bytes = (-1, ctx, none) ∧
      pico_1wire_set_resolution ctx 0 res p bytes pw = (-1, ctx, none) ∧
      (pico_1wire_read_power_supply ctx 0 p b given).1 ≠ -1 ∧
      (pico_1wire_read_scratch_pad ctx 0 p bytes).1 ≠ -1 ∧
      (pico_1wire_write_scratch_pad ctx 0 buf p).1 ≠ -1 ∧
      (pico_1wire_convert_temperature ctx 0 w p).1 ≠ -1 ∧
      (pico_1wire_get_temperature ctx 0 p bytes).1 ≠ -1 ∧
      (pico_1wire_write_scratch_pad ctx 0 buf true).2.2.head? = some CMD_SKIP := by
  refine ⟨by simp [pico_1wire_get_resolution], by simp [pico_1wire_set_resolution],
    ?_, ?_, ?_, ?_, ?_, ?_⟩
  · unfold pico_1wire_read_power_supply; dsimp only; split_ifs <;> norm_num
  · unfold pico_1wire_read_scratch_pad; dsimp only; split_ifs <;> norm_num
  · unfold pico_1wire_write_scratch_pad; dsimp only; split_ifs <;> norm_num
  · unfold pico_1wire_convert_temperature; dsimp only; split_ifs <;> norm_num
  · unfold pico_1wire_get_temperature; dsimp only; split_ifs <;> norm_num
  · simp [pico_1wire_write_scratch_pad, match_rom, matchRomWrites]

/-! ## Scratchpad reads and temperature decoding (claims C3, C4, C6) -/

lemma read_scratch_pad_ok (ctx : pico_1wire_t) (addr : Nat) (presence : Bool)
    (bytes : List Nat)
    (h : (pico_1wire_read_scratch_pad ctx addr presence bytes).1 = 0) :
    pico_1wire_read_scratch_pad ctx addr presence bytes =
      (0, ctx, some (bytes9 bytes)) := by
  unfold pico_1wire_read_scratch_pad at h ⊢
  dsimp only at h ⊢
  split_ifs at h ⊢
  · exact absurd h (by norm_num)
  · exact absurd h (by norm_num)
  · rfl

lemma bytes9_getD_lt (bytes : List Nat) (i : Nat) :
    (bytes9 bytes).getD i 0 < 256 := by
  rcases i with _ | _ | _ | _ | _ | _ | _ | _ | _ | n <;>
    simp only [bytes9, read_byte_stream, List.getD_cons_zero,
      List.getD_cons_succ] <;>
    first
      | exact Nat.mod_lt _ (by norm_num)
      | simp [List.getD]

lemma xor_div_two (x y : Nat) : (x ^^^ y) / 2 = x / 2 ^^^ y / 2 := by
  apply Nat.eq_of_testBit_eq
  intro i
  simp only [Nat.testBit_div_two, Nat.testBit_xor]

lemma xor_two_pow_sub_one : ∀ (n : ℕ), ∀ t < 2 ^ n,
    t ^^^ (2 ^ n - 1) = 2 ^ n - 1 - t := by
  intro n
  induction n with
  | zero =>
      intro t ht
      have h0 : t = 0 := by omega
      subst h0
      rfl
  | succ n ih =>
      intro t ht
      have h2 : 2 ^ (n + 1) = 2 * 2 ^ n := by ring
      have hmask : (2 ^ (n + 1) - 1) / 2 = 2 ^ n - 1 := by omega
      have ht2 : t / 2 < 2 ^ n := by omega
      have hih := ih (t / 2) ht2
      have he : t ^^^ (2 ^ (n + 1) - 1) =
          2 * (t / 2 ^^^ (2 ^ n - 1)) + (t + (2 ^ (n + 1) - 1)) % 2 := by
        conv_lhs => rw [← Nat.div_add_mod (t ^^^ (2 ^ (n + 1) - 1)) 2]
        rw [xor_div_two, hmask, Nat.xor_mod_two_eq]
      rw [he, hih]
      omega

lemma raw_if_eq_twos (t : Nat) (hlt : t < 2 ^ 16) :
    (if t &&& 0x8000 ≠ 0 then -(((t ^^^ 0xffff) + 1 : Nat) : Int)
     else (t : Int)) = twosComplement16 t := by
  unfold twosComplement16
  by_cases hc : 2 ^ 15 ≤ t
  · have hbit : t &&& 0x8000 ≠ 0 := by
      rw [show (0x8000 : Nat) = 2 ^ 15 from rfl, Nat.and_two_pow]
      have h15 : t.testBit 15 = true := by
        rw [Nat.testBit_to_div_mod]
        simp only [decide_eq_true_eq]
        omega
      rw [h15]
      norm_num
    rw [if_pos hbit, if_neg (by omega : ¬ t < 0x8000)]
    rw [show (0xffff : Nat) = 2 ^ 16 - 1 from rfl, xor_two_pow_sub_one 16 t hlt]
    omega
  · have hbit : t &&& 0x8000 = 0 := by
      rw [show (0x8000 : Nat) = 2 ^ 15 from rfl, Nat.and_two_pow,
        Nat.testBit_lt_two_pow (by omega)]
      norm_num
    rw [if_neg (by simp [hbit]), if_pos (by omega : t < 0x8000)]

lemma rawTemp_twos (scratch : List Nat) (h0 : scratch.getD 0 0 < 256)
    (h1 : scratch.getD 1 0 < 256) :
    rawTemp scratch =
      twosComplement16 ((scratch.getD 1 0 <<< 8) ||| scratch.getD 0 0) := by
  have hlt : (scratch.getD 1 0 <<< 8) ||| scratch.getD 0 0 < 2 ^ 16 := by
    apply Nat.or_lt_two_pow
    · rw [Nat.shiftLeft_eq]
      omega
    · exact lt_trans h0 (by norm_num)
  exact raw_if_eq_twos _ hlt

/-- C3: after a successful 9-byte scratchpad read,
`pico_1wire_get_temperature` interprets scratchpad bytes 0-1 as a
two's-complement 16-bit raw value; for the family codes 0x22, 0x28, 0x3B,
0x42 it returns raw/16 with status 0, and for a family code outside the
switch (not 0x10 either) it returns the same raw/16 value with status 2
(unsupported device). -/
theorem get_temperature_decode (ctx : pico_1wire_t) (addr : Nat)
    (presence : Bool) (bytes : List Nat)
    (hread : (pico_1wire_read_scratch_pad ctx addr presence bytes).1 = 0) :
    rawTemp (bytes9 bytes) =
        twosComplement16
          (((bytes9 bytes).getD 1 0 <<< 8) ||| (bytes9 bytes).getD 0 0) ∧
      (ADDR_FAMILY_CODE addr = FAMILY_CODE_DS1822 ∨
          ADDR_FAMILY_CODE addr = FAMILY_CODE_DS18B20 ∨
          ADDR_FAMILY_CODE addr = FAMILY_CODE_DS1825 ∨
          ADDR_FAMILY_CODE addr = FAMILY_CODE_DS28EA00 →
        pico_1wire_get_temperature ctx addr presence bytes =
          (0, ctx, some ((rawTemp (bytes9 bytes) : ℚ) / 16))) ∧
      (ADDR_FAMILY_CODE addr ∉
          ([FAMILY_CODE_DS18S20, FAMILY_CODE_DS1822, FAMILY_CODE_DS18B20,
            FAMILY_CODE_DS1825, FAMILY_CODE_DS28EA00] : List Nat) →
        pico_1wire_get_temperature ctx addr presence bytes =
          (2, ctx, some ((rawTemp (bytes9 bytes) : ℚ) / 16))) := by
  have hok := read_scratch_pad_ok ctx addr presence bytes hread
  refine ⟨rawTemp_twos _ (bytes9_getD_lt bytes 0) (bytes9_getD_lt bytes 1),
    ?_, ?_⟩
  · intro hfam
    unfold pico_1wire_get_temperature
    rw [hok]
    dsimp only
    rw [if_neg (by norm_num), if_pos hfam]
    rfl
  · intro hfam
    simp only [List.mem_cons, List.not_mem_nil, or_false, not_or] at hfam
    obtain ⟨hn10, hn22, hn28, hn3b, hn42⟩ := hfam
    unfold pico_1wire_get_temperature
    rw [hok]
    dsimp only
    rw [if_neg (by norm_num),
      if_neg (by simp [hn22, hn28, hn3b, hn42]),
      if_neg hn10]
    rfl

/-- Witness for C3: scratchpad bytes 0x50 0x05 (raw 0x0550 = 1360) decode to
85 °C with status 0 for the DS18B20 family, and bytes 0xF8 0xFF (raw -8)
decode to -0.5 °C with status 2 for the unknown family 0x99. -/
theorem get_temperature_decode_witness :
    pico_1wire_get_temperature defaultCtx 0x2800000000000000 true
        [0x50, 0x05, 0, 0, 0, 0, 0, 0, 212] = (0, defaultCtx, some 85) ∧
      pico_1wire_get_temperature defaultCtx 0x9900000000000000 true
        [0xF8, 0xFF, 0, 0, 0, 0, 0, 0, 11] =
          (2, defaultCtx, some (-(1 / 2))) := by
  have h1 := get_temperature_decode defaultCtx 0x2800000000000000 true
    [0x50, 0x05, 0, 0, 0, 0, 0, 0, 212] (by decide)
  have h2 := get_temperature_decode defaultCtx 0x9900000000000000 true
    [0xF8, 0xFF, 0, 0, 0, 0, 0, 0, 11] (by decide)
  constructor
  · have e := h1.2.1 (by decide)
    have hr : rawTemp (bytes9 [0x50, 0x05, 0, 0, 0, 0, 0, 0, 212]) = 1360 := by
      decide
    rw [e, hr]
    norm_num
  · have e := h2.2.2 (by decide)
    have hr : rawTemp (bytes9 [0xF8, 0xFF, 0, 0, 0, 0, 0, 0, 11]) = -8 := by
      decide
    rw [e, hr]
    norm_num

/-- C6: `pico_1wire_convert_duration` always returns status 0 with the
context unchanged; for a non-zero address of a resolution-configurable
family whose scratchpad read succeeds the estimated duration is 95, 190,
375 or 750 ms for configured resolution 9, 10, 11 or anything else (i.e.
12), and for the wildcard address, any other family, or a failed scratchpad
read it is the conservative maximum of 750 ms. -/
theorem convert_duration_spec (ctx : pico_1wire_t) (addr : Nat)
    (presence : Bool) (bytes : List Nat) :
    (pico_1wire_convert_duration ctx addr presence bytes).1 = 0 ∧
      (pico_1wire_convert_duration ctx addr presence bytes).2.1 = ctx ∧
      (addr ≠ 0 →
        (ADDR_FAMILY_CODE addr = FAMILY_CODE_DS18B20 ∨
          ADDR_FAMILY_CODE addr = FAMILY_CODE_DS1822 ∨
          ADDR_FAMILY_CODE addr = FAMILY_CODE_DS1825 ∨
          ADDR_FAMILY_CODE addr = FAMILY_CODE_DS28EA00) →
        (pico_1wire_read_scratch_pad ctx addr presence bytes).1 = 0 →
        (pico_1wire_convert_duration ctx addr presence bytes).2.2 =
          (if getResolutionFromConfig ((bytes9 bytes).getD 4 0) = 9 then 95
           else if getResolutionFromConfig ((bytes9 bytes).getD 4 0) = 10 then 190
           else if getResolutionFromConfig ((bytes9 bytes).getD 4 0) = 11 then 375
           else 750)) ∧
      (addr = 0 ∨
          ¬(ADDR_FAMILY_CODE addr = FAMILY_CODE_DS18B20 ∨
            ADDR_FAMILY_CODE addr = FAMILY_CODE_DS1822 ∨
            ADDR_FAMILY_CODE addr = FAMILY_CODE_DS1825 ∨
            ADDR_FAMILY_CODE addr = FAMILY_CODE_DS28EA00) →
        (pico_1wire_convert_duration ctx addr presence bytes).2.2 = 750) ∧
      ((pico_1wire_read_scratch_pad ctx addr presence bytes).1 ≠ 0 →
        (pico_1wire_convert_duration ctx addr presence bytes).2.2 = 750) := by
  refine ⟨rfl, rfl, ?_, ?_, ?_⟩
  · intro h0 hfam hok
    have hscr := read_scratch_pad_ok ctx addr presence bytes hok
    unfold pico_1wire_convert_duration
    dsimp only
    rw [if_pos ⟨h0, hfam⟩, hscr]
    dsimp only
    rw [if_pos rfl]
    rfl
  · intro hbad
    unfold pico_1wire_convert_duration
    dsimp only
    rw [if_neg (by tauto)]
    rfl
  · intro hfail
    by_cases hc : addr ≠ 0 ∧
        (ADDR_FAMILY_CODE addr = FAMILY_CODE_DS18B20 ∨
          ADDR_FAMILY_CODE addr = FAMILY_CODE_DS1822 ∨
          ADDR_FAMILY_CODE addr = FAMILY_CODE_DS1825 ∨
          ADDR_FAMILY_CODE addr = FAMILY_CODE_DS28EA00)
    · unfold pico_1wire_convert_duration
      dsimp only
      rw [if_pos hc, if_neg hfail]
      rfl
    · unfold pico_1wire_convert_duration
      dsimp only
      rw [if_neg hc]
      rfl

/-- Witness for C6: DS18B20 with an all-zero scratchpad (configured
resolution 9, valid CRC) gives the 95 ms estimate with status 0. -/
theorem convert_duration_spec_witness :
    pico_1wire_convert_duration defaultCtx 0x2800000000000000 true
        [0, 0, 0, 0, 0, 0, 0, 0, 0] = (0, defaultCtx, 95) := by
  have h := convert_duration_spec defaultCtx 0x2800000000000000 true
    [0, 0, 0, 0, 0, 0, 0, 0, 0]
  have e2 : (pico_1wire_convert_duration defaultCtx 0x2800000000000000 true
      [0, 0, 0, 0, 0, 0, 0, 0, 0]).2.2 = 95 :=
    (h.2.2.1 (by decide) (by decide) (by decide)).trans (by decide)
  exact congrArg (fun d => ((0 : Int), defaultCtx, d)) e2

/-- C4: for a non-zero address of a resolution-configurable family and a
resolution in 9..12, after a successful scratchpad re-read
`pico_1wire_set_resolution` patches only bits 5-6 of configuration byte
`scratch[4]` to `(resolution - 9) << 5` and writes the scratchpad back
(select, Write-Scratchpad command, then `scratch[2]`, `scratch[3]` and the
new configuration byte); it reports status 2 exactly when the write-back
cannot be carried out and verified (its bus reset finds no presence, so
nothing is written); the legacy family 0x10 and unknown families are
rejected with status 3 without any write-back. -/
theorem set_resolution_spec (ctx : pico_1wire_t) (addr res : Nat)
    (presence pw : Bool) (bytes : List Nat)
    (h0 : addr ≠ 0) (h9 : 9 ≤ res) (h12 : res ≤ 12)
    (hread : (pico_1wire_read_scratch_pad ctx addr presence bytes).1 = 0) :
    (ADDR_FAMILY_CODE addr = FAMILY_CODE_DS18B20 ∨
        ADDR_FAMILY_CODE addr = FAMILY_CODE_DS1822 ∨
        ADDR_FAMILY_CODE addr = FAMILY_CODE_DS1825 ∨
        ADDR_FAMILY_CODE addr = FAMILY_CODE_DS28EA00 →
      pico_1wire_set_resolution ctx addr res presence bytes pw =
        ((if pw then 0 else 2), ctx,
          some (if pw then
              matchRomWrites addr ++ CMD_WRITE_SCRATCHPAD ::
                [(bytes9 bytes).getD 2 0, (bytes9 bytes).getD 3 0,
                 setResolutionConfig ((bytes9 bytes).getD 4 0) res]
            else [])) ∧
      setResolutionConfig ((bytes9 bytes).getD 4 0) res &&& 0x9f =
        (bytes9 bytes).getD 4 0 &&& 0x9f ∧
      setResolutionConfig ((bytes9 bytes).getD 4 0) res &&& 0x60 =
        (res - 9) <<< 5) ∧
    (¬(ADDR_FAMILY_CODE addr = FAMILY_CODE_DS18B20 ∨
        ADDR_FAMILY_CODE addr = FAMILY_CODE_DS1822 ∨
        ADDR_FAMILY_CODE addr = FAMILY_CODE_DS1825 ∨
        ADDR_FAMILY_CODE addr = FAMILY_CODE_DS28EA00) →
      pico_1wire_set_resolution ctx addr res presence bytes pw =
        (3, ctx, none)) := by
  have hscr := read_scratch_pad_ok ctx addr presence bytes hread
  have hpatch : ∀ c < 256, ∀ r < 13, 9 ≤ r →
      setResolutionConfig c r &&& 0x9f = c &&& 0x9f ∧
        setResolutionConfig c r &&& 0x60 = (r - 9) <<< 5 := by decide
  constructor
  · intro hfam
    have hne : ADDR_FAMILY_CODE addr ≠ FAMILY_CODE_DS18S20 := by
      rcases hfam with h | h | h | h <;> rw [h] <;> decide
    refine ⟨?_, (hpatch _ (bytes9_getD_lt bytes 4) res (by omega) h9).1,
      (hpatch _ (bytes9_getD_lt bytes 4) res (by omega) h9).2⟩
    unfold pico_1wire_set_resolution
    dsimp only
    rw [if_neg (by omega), hscr]
    dsimp only
    rw [if_neg (by norm_num), if_pos hfam]
    cases pw with
    | false =>
        simp [pico_1wire_write_scratch_pad, match_rom]
    | true =>
        simp [pico_1wire_write_scratch_pad, match_rom, writeScratchDataBytes,
          hne, Option.getD, bytes9, List.set, List.getD]
  · intro hfam
    unfold pico_1wire_set_resolution
    dsimp only
    rw [if_neg (by omega), hscr]
    dsimp only
    rw [if_neg (by norm_num), if_neg hfam]

/-- Witness for C4: DS18B20 at address 0x2800000000000001, resolution 12,
successful read and write-back; the write-back trace is Match-ROM, the
address bytes, Write-Scratchpad and the bytes 0, 0, 0x60. -/
theorem set_resolution_spec_witness :
    pico_1wire_set_resolution defaultCtx 0x2800000000000001 12 true
        [0x50, 0x05, 0, 0, 0, 0, 0, 0, 212] true =
      (0, defaultCtx,
        some [0x55, 0x28, 0, 0, 0, 0, 0, 0, 1, 0x4E, 0, 0, 0x60]) := by
  have h := set_resolution_spec defaultCtx 0x2800000000000001 12 true true
    [0x50, 0x05, 0, 0, 0, 0, 0, 0, 212] (by decide) (by decide) (by decide)
    (by decide)
  exact ((h.1 (by decide)).1).trans (by decide)

end PicoOneWire
